import Mathlib

/-!
Shallow embedding of the agentic workflow orchestrator
(src/workflows/agentic_workflow.py) together with the collaborator code it
drives: the plan agent (src/agents/plan_agent.py), the tool agent
(src/agents/tool_agent.py), the reflection agent
(src/agents/reflection_agent.py) and the tool registry
(src/tools/registry.py).

External collaborator behaviour (LLM responses, tool outcomes) is passed in
as oracle parameters, so every theorem quantifying over oracles covers every
possible collaborator behaviour, including malformed text.
-/

namespace AgenticWorkflow

/-- Task status: the `status` string field of the `Task` dataclass takes the
values "pending", "completed", "failed" (src/utils/state.py). -/
inductive Status where
  | pending
  | completed
  | failed
deriving DecidableEq, Repr

/-- The `Task` dataclass of src/utils/state.py. `result` and `error` default
to `None` (here `none`). -/
structure Task where
  id : Nat
  description : String
  status : Status
  tool_used : Option String
  result : Option String
  error : Option String
deriving DecidableEq, Repr

/-- The `WorkflowState` TypedDict of src/utils/state.py. `needs_replan` is
declared `Optional[bool]` and read with `.get("needs_replan", False)`, so an
absent or `None` value behaves as `False`; it is modelled as a `Bool`.
`current_task_id` and `feedback` are carried but never touched by any node. -/
structure WorkflowState where
  original_query : String
  tasks : List Task
  current_task_id : Option Nat
  iteration_count : Nat
  final_answer : Option String
  should_continue : Bool
  feedback : List String
  needs_replan : Bool
deriving DecidableEq, Repr

/-- The initial state built in src/app.py (lines 34-42): empty task list,
`iteration_count = 0`, `final_answer = None`, `should_continue = True`,
`needs_replan` absent (hence read as `False`). -/
def initialState (query : String) : WorkflowState :=
  { original_query := query
    tasks := []
    current_task_id := none
    iteration_count := 0
    final_answer := none
    should_continue := true
    feedback := []
    needs_replan := false }

/-! ### Plan agent (src/agents/plan_agent.py) -/

/-- The two RETURNING outcomes of the `json.loads` call inside
`PlanAgent.plan`: either the parse raises `JSONDecodeError` (`fail`), which
the `except (json.JSONDecodeError, KeyError)` clause catches, or it yields
an iterable whose `enumerate` items are each either a dict containing both a
"description" and a "tool" key (`some (description, tool)`) or anything else
(`none`), the shape tested by the `isinstance`/key check on lines 80-88
(strings and dicts iterate to non-dict items, i.e. all-`none` entries).
`json.loads` has a third outcome — a non-iterable scalar such as `5`,
`3.14`, `true` or `null` — on which `enumerate` raises a `TypeError` that
the except clause does NOT catch, so `PlanAgent.plan` raises instead of
returning; that path is modelled by `PlanParse` and `planFull` below. -/
inductive ParseResult where
  | fail
  | ok (entries : List (Option (String × String)))

/-- The fallback of `PlanAgent._create_fallback_task`: a single pending
web-search task with id 1 whose description embeds the original query. -/
def createFallbackTask (query : String) : List Task :=
  [ { id := 1
      description := "Search for information about: " ++ query
      status := .pending
      tool_used := some "web_search"
      result := none
      error := none } ]

/-- The task-building loop of `PlanAgent.plan` (lines 80-88): iterate over
the parsed array with `enumerate`, keep only well-formed entries, and give
each kept task `id = i + 1` where `i` is its index in the ORIGINAL array
(malformed entries still advance the index). -/
def planTasksAux (i : Nat) : List (Option (String × String)) → List Task
  | [] => []
  | none :: rest => planTasksAux (i + 1) rest
  | some (d, t) :: rest =>
    { id := i + 1, description := d, status := .pending
      tool_used := some t, result := none, error := none } :: planTasksAux (i + 1) rest

/-- The returning paths of `PlanAgent.plan` (lines 67-95): on a caught
parse failure, or when no entry yields a valid task, the fallback task
list; otherwise the built task list. The raising path (scalar JSON) is
modelled by `planFull`. The tool-name list passed in the source only feeds
the LLM prompt, which is subsumed by the oracle. -/
def plan (query : String) (pr : ParseResult) : List Task :=
  match pr with
  | .fail => createFallbackTask query
  | .ok entries =>
    let tasks := planTasksAux 0 entries
    if tasks.isEmpty then createFallbackTask query else tasks

/-- Full outcome of `json.loads` on the cleaned planner response:
`decodeError` (the parse raises, caught), `scalar typeName` (the parse
succeeds with a non-iterable value of the named Python type, e.g. "int"
for the response text "5"), or `iterable entries` (the parse succeeds with
something `enumerate` accepts). -/
inductive PlanParse where
  | decodeError
  | scalar (typeName : String)
  | iterable (entries : List (Option (String × String)))

/-- Faithful model of `PlanAgent.plan` over the full response space: on a
non-iterable scalar, `for i, task_data in enumerate(tasks_data)` (line 80)
raises `TypeError: '<type>' object is not iterable`, which the
`except (json.JSONDecodeError, KeyError)` clause (line 92) does not catch,
so the call raises instead of returning a task list; the returning paths
are those of `plan`. -/
def planFull (query : String) : PlanParse → Except String (List Task)
  | .decodeError => .ok (plan query .fail)
  | .scalar typeName =>
    .error ("TypeError: \x27" ++ typeName ++ "\x27 object is not iterable")
  | .iterable entries => .ok (plan query (.ok entries))

/-! ### Tool agent (src/agents/tool_agent.py) -/

/-- Behaviour of one tool invocation, folding together the LLM input
extraction and `tool.execute` (tool_agent.py lines 71-83): the returned dict
reports success with a result string, failure with an error string, or the
call raises and is caught by the `except` block (lines 86-90). -/
inductive ToolOutcome where
  | ok (result : String)
  | err (error : String)
  | exn (msg : String)

/-- Rendering of `task.tool_used` inside the f-string error message: Python
prints `None` for an unset optional. -/
def toolNameStr : Option String → String
  | none => "None"
  | some s => s

/-- `ToolAgent.execute_task`: an unregistered tool name fails the task with
the "not available" error (lines 50-54); otherwise the tool outcome decides
the branch (lines 78-84), with exceptions caught on lines 86-90. Note that
the failure branches leave `result` untouched and the success branch leaves
`error` untouched, mirroring the in-place field updates of the source. -/
def execute_task (registry : List String) (outcome : ToolOutcome) (task : Task) : Task :=
  if registry.contains (toolNameStr task.tool_used) then
    match outcome with
    | .ok r => { task with result := some r, status := .completed }
    | .err e => { task with status := .failed, error := some e }
    | .exn m => { task with status := .failed, error := some ("Execution error: " ++ m) }
  else
    { task with status := .failed
                error := some ("Tool \x27" ++ toolNameStr task.tool_used ++ "\x27 not available") }

/-! ### Reflection agent (src/agents/reflection_agent.py) -/

/-- Substring test used by `should_refine_plan` line 79:
`"no" in response.lower()`. -/
def hasNoSub : List Char → Bool
  | 'n' :: 'o' :: _ => true
  | _ :: rest => hasNoSub rest
  | [] => false

/-- Adequacy signal of reflection: any response whose lowercase form
contains the substring "no" counts as negative (line 79). -/
def respSaysNo (resp : String) : Bool :=
  hasNoSub (resp.data.map Char.toLower)

/-- `ReflectionAgent.should_refine_plan` (lines 30-81). The LLM adequacy
response is the `adequacyResp` oracle; in the source the LLM is only invoked
in the completed-tasks branch, which the parameterisation preserves
observationally. -/
def should_refine_plan (adequacyResp : String) (s : WorkflowState) : Bool :=
  let completed := s.tasks.filter (fun t => t.status = .completed)
  let failed := s.tasks.filter (fun t => t.status = .failed)
  let pending := s.tasks.filter (fun t => t.status = .pending)
  if 3 ≤ s.iteration_count then false
  else if ¬ failed.isEmpty ∧ s.iteration_count < 2 then true
  else if completed.isEmpty ∧ pending.isEmpty ∧ s.iteration_count < 1 then true
  else if ¬ completed.isEmpty then respSaysNo adequacyResp
  else false

/-- Refinement actions produced by `suggest_refinements`: the dicts
`{"action": "modify", "task_id", "new_description", ...}` and
`{"action": "add", "description", "tool"}`. The `new_tool` entry of a modify
dict is never read by `reflect_node` and is omitted. -/
inductive Refinement where
  | modify (task_id : Nat) (new_description : String)
  | add (description : String) (tool : String)

/-- Whitespace test for the model of Python's `str.strip`. -/
def isSpaceChar (c : Char) : Bool :=
  c = ' ' ∨ c = '\t' ∨ c = '\n' ∨ c = '\r'

/-- Drop leading whitespace characters. -/
def dropLeadingSpace : List Char → List Char
  | [] => []
  | c :: cs => if isSpaceChar c then dropLeadingSpace cs else c :: cs

/-- Model of Python's `str.strip()`: remove leading and trailing
whitespace. -/
def pyStrip (s : String) : String :=
  ⟨((dropLeadingSpace ((dropLeadingSpace s.data).reverse)).reverse)⟩

/-- Model of Python's `str.split("|")`: the segments between bar characters
(an input with no bar yields one segment). -/
def splitOnBar : List Char → List (List Char)
  | [] => [[]]
  | c :: cs =>
    if c = '|' then [] :: splitOnBar cs
    else
      match splitOnBar cs with
      | [] => [[c]]
      | p :: ps => (c :: p) :: ps

/-- The per-failed-task loop of `suggest_refinements` (lines 105-118): one
modify action per failed task, in task-list order, whose new description is
that invocation's LLM response stripped. `modifyResp i` is the LLM response
for the i-th failed task. -/
def modifyActions (modifyResp : Nat → String) : Nat → List Task → List Refinement
  | _, [] => []
  | i, t :: ts => .modify t.id (pyStrip (modifyResp i)) :: modifyActions modifyResp (i + 1) ts

/-- The add branch of `suggest_refinements` (lines 121-140): only when no
task is completed; the LLM response must contain a bar and split (after
stripping) into exactly two parts, each stripped again. -/
def addActions (addResp : String) : List Refinement :=
  if addResp.data.contains '|' then
    match splitOnBar (pyStrip addResp).data with
    | [d, t] => [.add (pyStrip ⟨d⟩) (pyStrip ⟨t⟩)]
    | _ => []
  else []

/-- `ReflectionAgent.suggest_refinements` (lines 83-141). -/
def suggest_refinements (modifyResp : Nat → String) (addResp : String)
    (s : WorkflowState) : List Refinement :=
  let failed := s.tasks.filter (fun t => t.status = .failed)
  let completed := s.tasks.filter (fun t => t.status = .completed)
  modifyActions modifyResp 0 failed ++ (if completed.isEmpty then addActions addResp else [])

/-! ### Workflow nodes (src/workflows/agentic_workflow.py) -/

/-- The modify branch of `reflect_node` (lines 113-120): find the FIRST task
with the given id, overwrite its description, reset status to pending and
clear `error` — `result` is NOT cleared — then break. -/
def applyModify (tid : Nat) (d : String) : List Task → List Task
  | [] => []
  | t :: ts =>
    if t.id = tid then { t with description := d, status := .pending, error := none } :: ts
    else t :: applyModify tid d ts

/-- Application of one refinement to the task list (reflect_node lines
112-129): an add appends a fresh pending task with
`id = len(state["tasks"]) + 1` evaluated at that moment. -/
def applyRefinement (tasks : List Task) : Refinement → List Task
  | .modify tid d => applyModify tid d tasks
  | .add d tool =>
    tasks ++ [ { id := tasks.length + 1, description := d, status := .pending
                 tool_used := some tool, result := none, error := none } ]

/-- Per-step collaborator behaviour: the planner parse outcome, the tool
outcome of an execute step, and the three reflection/finalization LLM
responses. A run takes a stream of these, one per orchestrator step. The
`planParse` field ranges over the returning planner behaviours; on the
raising scalar-JSON behaviour (see `planFull`) the plan node would raise
before touching any state, adding no reachable state. -/
structure StepOracle where
  planParse : ParseResult
  toolOutcome : ToolOutcome
  adequacyResp : String
  modifyResp : Nat → String
  addResp : String
  synthResp : String

/-- `plan_node` (lines 45-65): replan only when the task list is empty or
`needs_replan` is truthy; in that case replace the tasks and clear
`needs_replan`. -/
def plan_node (pr : ParseResult) (s : WorkflowState) : WorkflowState :=
  if s.tasks.isEmpty ∨ s.needs_replan then
    { s with tasks := plan s.original_query pr, needs_replan := false }
  else s

/-- The scan-and-execute-first-pending loop of `execute_node`
(lines 82-88): at most one task is executed per invocation. -/
def executeFirstPending (exec : Task → Task) : List Task → List Task
  | [] => []
  | t :: ts => if t.status = .pending then exec t :: ts else t :: executeFirstPending exec ts

/-- `execute_node` (lines 67-89). -/
def execute_node (registry : List String) (outcome : ToolOutcome) (s : WorkflowState) :
    WorkflowState :=
  { s with tasks := executeFirstPending (execute_task registry outcome) s.tasks }

/-- `reflect_node` (lines 91-136): when refinement is requested and the
iteration ceiling not reached, apply all suggested refinements in order,
increment `iteration_count` and set `should_continue`; otherwise clear
`should_continue`. -/
def reflect_node (o : StepOracle) (s : WorkflowState) : WorkflowState :=
  if should_refine_plan o.adequacyResp s ∧ s.iteration_count < 3 then
    { s with
      tasks := (suggest_refinements o.modifyResp o.addResp s).foldl applyRefinement s.tasks
      iteration_count := s.iteration_count + 1
      should_continue := true }
  else { s with should_continue := false }

/-- The fixed apology of `finalize_node` line 175. -/
def apologyMessage : String :=
  "I apologize, but I wasn\x27t able to complete any tasks to answer your query. Please try rephrasing your question or check if the required tools are available."

/-- `finalize_node` (lines 138-177): with completed tasks the LLM synthesis
response becomes `final_answer` verbatim; otherwise the fixed apology. -/
def finalize_node (synthResp : String) (s : WorkflowState) : WorkflowState :=
  if (s.tasks.filter (fun t => t.status = .completed)).isEmpty then
    { s with final_answer := some apologyMessage }
  else { s with final_answer := some synthResp }

/-! ### Routing and the compiled graph -/

/-- The three route names returned by the `should_continue` routing function
(lines 179-201). -/
inductive Route where
  | execute
  | reflect
  | finalize
deriving DecidableEq, Repr

/-- The `should_continue` routing function (lines 179-201): pending tasks
first, then the `should_continue` flag, then finalize. -/
def should_continue_route (s : WorkflowState) : Route :=
  if ¬ (s.tasks.filter (fun t => t.status = .pending)).isEmpty then .execute
  else if s.should_continue then .reflect
  else .finalize

/-- Graph nodes of `create_workflow`, plus the END sentinel reached from
finalize. -/
inductive Node where
  | plan
  | execute
  | reflect
  | finalize
deriving DecidableEq, Repr

/-- Run status: still running at a node, finished (reached END after
finalize), or crashed because a conditional-edge lookup returned a route
name absent from the edge mapping (langgraph raises in that case). -/
inductive Exec where
  | running (s : WorkflowState) (n : Node)
  | finished (s : WorkflowState)
  | crashed (s : WorkflowState)

/-- Conditional-edge dispatch after the execute node (lines 217-225): the
path map sends each of the three route names to the node of the same name. -/
def execRoute (t : WorkflowState) : Exec :=
  match should_continue_route t with
  | .execute => .running t .execute
  | .reflect => .running t .reflect
  | .finalize => .running t .finalize

/-- Conditional-edge dispatch after the reflect node (lines 226-233): the
path map is `{"execute": "plan", "finalize": "finalize"}` and has NO entry
for the route name "reflect"; langgraph raises on an unmapped route name,
modelled as `crashed`. -/
def reflectRoute (t : WorkflowState) : Exec :=
  match should_continue_route t with
  | .execute => .running t .plan
  | .finalize => .running t .finalize
  | .reflect => .crashed t

/-- One orchestrator step of the compiled graph (lines 203-237): plan has an
unconditional edge to execute; execute and reflect route through
`should_continue` with their respective path maps; finalize has an edge to
END. -/
def graphStep (registry : List String) (o : StepOracle) (s : WorkflowState) : Node → Exec
  | .plan => .running (plan_node o.planParse s) .execute
  | .execute => execRoute (execute_node registry o.toolOutcome s)
  | .reflect => reflectRoute (reflect_node o s)
  | .finalize => .finished (finalize_node o.synthResp s)

/-- Iterate the graph for a given number of steps, feeding step `i` the
oracle `os i`. -/
def runAux (registry : List String) (os : Nat → StepOracle) : Nat → Nat → Exec → Exec
  | _, 0, e => e
  | i, fuel + 1, e =>
    match e with
    | .running s n => runAux registry os (i + 1) fuel (graphStep registry (os i) s n)
    | e => e

/-- A run: start at the entry point (the plan node, line 213) from the given
state and take at most `fuel` steps. -/
def run (registry : List String) (os : Nat → StepOracle) (s : WorkflowState)
    (fuel : Nat) : Exec :=
  runAux registry os 0 fuel (.running s .plan)

/-- State carried by an `Exec`. -/
def execState : Exec → WorkflowState
  | .running s _ => s
  | .finished s => s
  | .crashed s => s

/-- The tool registry assembled by `create_workflow` (lines 35-38): web
search, calculator and weather, in registration order. -/
def standardRegistry : List String := ["web_search", "calculator", "weather"]

/-- A benign collaborator behaviour used as the default entry of concrete
oracle streams. -/
def defaultOracle : StepOracle :=
  { planParse := .fail
    toolOutcome := .ok "r"
    adequacyResp := "yes"
    modifyResp := fun _ => "m"
    addResp := ""
    synthResp := "synth" }

/-- Check for a crashed run. -/
def isCrashed : Exec → Bool
  | .crashed _ => true
  | _ => false

/-- Oracle stream of the C1 crashing run: the planner produces one valid
web-search task, its execution succeeds, and the reflection adequacy
judgment answers "no", so reflection keeps iterating while generating no
refinement action (no failed task blocks modify actions, an existing
completed task blocks the add action). -/
def osC1 : Nat → StepOracle
  | 0 => { defaultOracle with planParse := .ok [some ("d1", "web_search")] }
  | 1 => { defaultOracle with toolOutcome := .ok "r1" }
  | 2 => { defaultOracle with adequacyResp := "no" }
  | _ => defaultOracle

/-- The workflow state in which the C1 run crashes. -/
def c1CrashState : WorkflowState :=
  execState (run standardRegistry osC1 (initialState "q") 3)

/-- Planner responses that yield no valid task: a parse failure or an array
all of whose entries are malformed (this includes the empty array). -/
def noValidEntry : ParseResult → Prop
  | .fail => True
  | .ok entries => ∀ e ∈ entries, e = none

/-- The "translate" scenario of the spec: a task bound to an unregistered
tool name. -/
def translateTask : Task :=
  { id := 1, description := "translate hello to French", status := .pending
    tool_used := some "translate", result := none, error := none }

/-- Per-task field predicate asserted by claim C3 (spec section 8): pending
implies both fields null; completed implies result set and error null;
failed implies error set and result null. -/
def taskFieldsClaim (t : Task) : Bool :=
  match t.status with
  | .pending => t.result.isNone && t.error.isNone
  | .completed => t.result.isSome && t.error.isNone
  | .failed => t.error.isSome && t.result.isNone

/-- Oracle stream of the C3 counterexample run: the planner skips a
malformed first entry (so ids start at 2 and `len(tasks) + 1` can collide
with an existing id), both tasks fail once, reflection adds a task that
reuses id 3, the original id-3 task then completes while the added id-3
task fails, and the next reflection modify on id 3 hits the completed task
first. -/
def osC3 : Nat → StepOracle
  | 0 => { defaultOracle with
           planParse := .ok [none, some ("d1", "calculator"), some ("d2", "web_search")] }
  | 1 => { defaultOracle with toolOutcome := .err "e2" }
  | 2 => { defaultOracle with toolOutcome := .err "e3" }
  | 3 => { defaultOracle with addResp := "extra|weather" }
  | 5 => { defaultOracle with toolOutcome := .err "e2b" }
  | 6 => { defaultOracle with toolOutcome := .ok "r3" }
  | 7 => { defaultOracle with toolOutcome := .err "e3p" }
  | _ => defaultOracle

/-- Weakened per-task invariant that the code actually preserves: the
`result` field of a pending or failed task is left unconstrained, because
reflection modify resets a task to pending without clearing `result`. -/
def TaskOK (t : Task) : Prop :=
  (t.status = .pending → t.error = none)
  ∧ (t.status = .completed → t.result ≠ none ∧ t.error = none)
  ∧ (t.status = .failed → t.error ≠ none)

/-- All tasks of a state satisfy the weakened invariant. -/
def StateOK (s : WorkflowState) : Prop := ∀ t ∈ s.tasks, TaskOK t

/-- Concrete state used by the C6 counterexample: fresh run state holding a
single failed task. -/
def reflectLoopState : WorkflowState :=
  { initialState "q" with
    tasks := [{ id := 1, description := "d", status := .failed
                tool_used := some "web_search", result := none, error := some "e" }] }

/-! ### Iteration-count lemmas -/

theorem plan_node_iteration (pr : ParseResult) (s : WorkflowState) :
    (plan_node pr s).iteration_count = s.iteration_count := by
  unfold plan_node; split <;> rfl

theorem execute_node_iteration (reg : List String) (o : ToolOutcome) (s : WorkflowState) :
    (execute_node reg o s).iteration_count = s.iteration_count := rfl

theorem reflect_node_iteration_le (o : StepOracle) (s : WorkflowState)
    (h : s.iteration_count ≤ 3) : (reflect_node o s).iteration_count ≤ 3 := by
  unfold reflect_node
  split
  · next hc => exact hc.2
  · exact h

theorem finalize_node_iteration (r : String) (s : WorkflowState) :
    (finalize_node r s).iteration_count = s.iteration_count := by
  unfold finalize_node; split <;> rfl

theorem execState_execRoute (t : WorkflowState) : execState (execRoute t) = t := by
  unfold execRoute
  split <;> rfl

theorem execState_reflectRoute (t : WorkflowState) : execState (reflectRoute t) = t := by
  unfold reflectRoute
  split <;> rfl

theorem graphStep_iteration (reg : List String) (o : StepOracle) (s : WorkflowState)
    (n : Node) (h : s.iteration_count ≤ 3) :
    (execState (graphStep reg o s n)).iteration_count ≤ 3 := by
  cases n with
  | plan =>
    simpa [graphStep, execState, plan_node_iteration] using h
  | execute =>
    show (execState (execRoute (execute_node reg o.toolOutcome s))).iteration_count ≤ 3
    rw [execState_execRoute]
    simpa [execute_node_iteration] using h
  | reflect =>
    show (execState (reflectRoute (reflect_node o s))).iteration_count ≤ 3
    rw [execState_reflectRoute]
    exact reflect_node_iteration_le o s h
  | finalize =>
    simpa [graphStep, execState, finalize_node_iteration] using h

theorem runAux_iteration (reg : List String) (os : Nat → StepOracle) (fuel : Nat) :
    ∀ i e, (execState e).iteration_count ≤ 3 →
      (execState (runAux reg os i fuel e)).iteration_count ≤ 3 := by
  induction fuel with
  | zero => intro i e h; exact h
  | succ m ih =>
    intro i e h
    cases e with
    | running s n =>
      exact ih (i + 1) (graphStep reg (os i) s n) (graphStep_iteration reg (os i) s n h)
    | finished s => exact h
    | crashed s => exact h

/-- C2: `should_refine_plan` returns false whenever `iteration_count >= 3`,
regardless of the tasks and of any LLM response; and in every state
reachable during a run started from the initial state, under every
registry and collaborator behaviour, `iteration_count` never exceeds 3. -/
theorem c2_iteration_ceiling :
    (∀ resp s, 3 ≤ s.iteration_count → should_refine_plan resp s = false)
    ∧ ∀ reg os q fuel,
        (execState (run reg os (initialState q) fuel)).iteration_count ≤ 3 := by
  constructor
  · intro resp s h
    unfold should_refine_plan
    simp [h]
  · intro reg os q fuel
    exact runAux_iteration reg os fuel 0 (.running (initialState q) .plan)
      (by simp [execState, initialState])

/-- C2 witness: the ceiling check at a concrete state with iteration count 3,
and the reachable-state bound on a concrete short run. -/
theorem c2_iteration_ceiling_witness :
    should_refine_plan "yes" { initialState "q" with iteration_count := 3 } = false ∧
      (execState (run [] (fun _ => defaultOracle) (initialState "q") 5)).iteration_count ≤ 3 := by
  constructor
  · exact c2_iteration_ceiling.1 "yes" { initialState "q" with iteration_count := 3 } (by decide)
  · exact c2_iteration_ceiling.2 [] (fun _ => defaultOracle) "q" 5

/-! ### Routing (claim C4) -/

/-- C4: the routing function evaluated after an EXECUTE or REFLECT step
selects EXECUTE exactly when some task is pending; otherwise it selects
REFLECT exactly when `should_continue` is true; otherwise FINALIZE. -/
theorem c4_routing (s : WorkflowState) :
    (should_continue_route s = Route.execute ↔ ∃ t ∈ s.tasks, t.status = Status.pending)
    ∧ ((¬ ∃ t ∈ s.tasks, t.status = Status.pending) →
        ((should_continue_route s = Route.reflect ↔ s.should_continue = true)
          ∧ (should_continue_route s = Route.finalize ↔ s.should_continue = false))) := by
  by_cases hp : ∃ t ∈ s.tasks, t.status = Status.pending
  · have hne : (s.tasks.filter (fun t => t.status = Status.pending)).isEmpty = false := by
      rcases hp with ⟨t, ht, hs⟩
      simp only [List.isEmpty_eq_false, ne_eq, List.filter_eq_nil_iff, not_forall]
      exact ⟨t, ht, by simp [hs]⟩
    refine ⟨?_, fun h => absurd hp h⟩
    simp [should_continue_route, hne, hp]
  · have hne : (s.tasks.filter (fun t => t.status = Status.pending)).isEmpty = true := by
      simp only [List.isEmpty_eq_true, List.filter_eq_nil_iff]
      intro t ht hs
      exact hp ⟨t, ht, by simpa using hs⟩
    constructor
    · cases hsc : s.should_continue <;> simp [should_continue_route, hne, hsc, hp]
    · intro _
      cases hsc : s.should_continue <;> simp [should_continue_route, hne, hsc]

/-- C4 witness: routing at a concrete state with no pending task and
`should_continue = true` goes to REFLECT. -/
theorem c4_routing_witness :
    should_continue_route (initialState "q") = Route.reflect ↔
      (initialState "q").should_continue = true :=
  ((c4_routing (initialState "q")).2 (by simp [initialState])).1

/-! ### Planner fallback (claim C7) -/

theorem planTasksAux_nil_of_none :
    ∀ i (l : List (Option (String × String))), (∀ e ∈ l, e = none) →
      planTasksAux i l = [] := by
  intro i l
  induction l generalizing i with
  | nil => intro _; rfl
  | cons e rest ih =>
    intro h
    have he : e = none := h e (List.mem_cons_self ..)
    subst he
    simpa [planTasksAux] using ih (i + 1) (fun x hx => h x (List.mem_cons_of_mem _ hx))

/-- Fallback guarantee on the RETURNING paths of the planner: whenever
`PlanAgent.plan` returns, the task list is non-empty, and when no valid
task was produced it is exactly the single fallback task whose description
embeds the query. -/
theorem plan_fallback_returning (q : String) (pr : ParseResult) :
    plan q pr ≠ []
    ∧ (noValidEntry pr →
        plan q pr = [{ id := 1, description := "Search for information about: " ++ q,
                       status := Status.pending, tool_used := some "web_search",
                       result := none, error := none }])
    ∧ ∃ p, "Search for information about: " ++ q = p ++ q := by
  refine ⟨?_, ?_, ⟨"Search for information about: ", rfl⟩⟩
  · cases pr with
    | fail => simp [plan, createFallbackTask]
    | ok entries =>
      simp only [plan]
      split
      · simp [createFallbackTask]
      · next h => simpa [List.isEmpty_iff] using h
  · intro hnv
    cases pr with
    | fail => rfl
    | ok entries =>
      have hnil : planTasksAux 0 entries = [] := planTasksAux_nil_of_none 0 entries hnv
      simp [plan, hnil, createFallbackTask]

/-- C7: the claim that `plan` returns a non-empty task list for EVERY
planner LLM response fails on the code at the response text "5":
`json.loads` succeeds with the integer 5, `enumerate(tasks_data)` raises a
TypeError ("int object is not iterable"), and the
`except (json.JSONDecodeError, KeyError)` clause does not catch it, so
`PlanAgent.plan` raises instead of producing any task list — while on the
caught `JSONDecodeError` path the promised fallback does fire. -/
theorem c7_scalar_response_raises :
    planFull "best tips" (PlanParse.scalar "int") =
      Except.error "TypeError: \x27int\x27 object is not iterable"
    ∧ planFull "best tips" PlanParse.decodeError =
        Except.ok [{ id := 1, description := "Search for information about: best tips",
                     status := Status.pending, tool_used := some "web_search",
                     result := none, error := none }] :=
  ⟨rfl, rfl⟩

/-! ### Tool-not-found failure (claim C8) -/

/-- C8: a task whose tool name does not resolve in the registry is returned
with status failed and the exact "not available" error, its `result` field
untouched; all other fields are also unchanged. -/
theorem c8_tool_not_available (registry : List String) (outcome : ToolOutcome) (task : Task)
    (h : toolNameStr task.tool_used ∉ registry) :
    execute_task registry outcome task =
      { task with
        status := Status.failed
        error := some ("Tool \x27" ++ toolNameStr task.tool_used ++ "\x27 not available") }
    ∧ (execute_task registry outcome task).result = task.result := by
  constructor
  · simp [execute_task, h]
  · simp [execute_task, h]

/-- C8 witness: the "translate" task against the standard registry. -/
theorem c8_tool_not_available_witness :
    execute_task standardRegistry (ToolOutcome.ok "r") translateTask =
      { translateTask with
        status := Status.failed
        error := some "Tool \x27translate\x27 not available" }
    ∧ (execute_task standardRegistry (ToolOutcome.ok "r") translateTask).result =
        translateTask.result := by
  have h := c8_tool_not_available standardRegistry (ToolOutcome.ok "r") translateTask
    (by decide)
  exact ⟨by rw [h.1]; rfl, h.2⟩

/-! ### Finalization (claim C9) -/

/-- C9: finalize on a state with no completed task sets `final_answer` to
the fixed apology, independently of the LLM synthesis response (the LLM is
not consulted); with at least one completed task it sets `final_answer`
verbatim to the synthesis response. -/
theorem c9_finalize (r1 r2 : String) (s : WorkflowState) :
    ((∀ t ∈ s.tasks, t.status ≠ Status.completed) →
        finalize_node r1 s = { s with final_answer := some apologyMessage }
        ∧ finalize_node r1 s = finalize_node r2 s)
    ∧ ((∃ t ∈ s.tasks, t.status = Status.completed) →
        finalize_node r1 s = { s with final_answer := some r1 }) := by
  constructor
  · intro h
    have hne : (s.tasks.filter (fun t => t.status = Status.completed)).isEmpty = true := by
      simp only [List.isEmpty_eq_true, List.filter_eq_nil_iff]
      intro t ht hs
      exact absurd (by simpa using hs) (h t ht)
    exact ⟨by simp [finalize_node, hne], by simp [finalize_node, hne]⟩
  · intro hp
    have hne : (s.tasks.filter (fun t => t.status = Status.completed)).isEmpty = false := by
      rcases hp with ⟨t, ht, hs⟩
      simp only [List.isEmpty_eq_false, ne_eq, List.filter_eq_nil_iff, not_forall]
      exact ⟨t, ht, by simp [hs]⟩
    simp [finalize_node, hne]

/-- C9 witness: the apology branch on the initial (task-free) state and the
verbatim branch on a state with one completed task. -/
theorem c9_finalize_witness :
    finalize_node "ANSWER" (initialState "q") =
      { initialState "q" with final_answer := some apologyMessage }
    ∧ finalize_node "ANSWER"
        { initialState "q" with
          tasks := [{ id := 1, description := "d", status := .completed,
                      tool_used := some "calculator", result := some "10.05",
                      error := none }] } =
      { initialState "q" with
        tasks := [{ id := 1, description := "d", status := .completed,
                    tool_used := some "calculator", result := some "10.05",
                    error := none }]
        final_answer := some "ANSWER" } := by
  constructor
  · exact ((c9_finalize "ANSWER" "other" (initialState "q")).1 (by simp [initialState])).1
  · exact (c9_finalize "ANSWER" "other" _).2 ⟨_, List.mem_cons_self .., rfl⟩

/-! ### Plan-node frame property (claim C10) -/

/-- C10: with a non-empty task list and `needs_replan` false, the plan step
returns the state completely unchanged, and its output does not depend on
the planning collaborator at all (the planner is observationally not
invoked). -/
theorem c10_plan_frame (pr1 pr2 : ParseResult) (s : WorkflowState)
    (h1 : s.tasks ≠ []) (h2 : s.needs_replan = false) :
    plan_node pr1 s = s ∧ plan_node pr1 s = plan_node pr2 s := by
  have hc : ¬ (s.tasks.isEmpty ∨ s.needs_replan) := by
    simp [List.isEmpty_iff, h1, h2]
  have he : ∀ pr, plan_node pr s = s := by
    intro pr
    unfold plan_node
    exact if_neg hc
  exact ⟨he pr1, (he pr1).trans (he pr2).symm⟩

/-- C10 witness: a concrete looped-back state with one completed task. -/
theorem c10_plan_frame_witness :
    plan_node ParseResult.fail
        { initialState "q" with
          tasks := [{ id := 1, description := "d", status := .completed,
                      tool_used := some "web_search", result := some "r",
                      error := none }] } =
      { initialState "q" with
        tasks := [{ id := 1, description := "d", status := .completed,
                    tool_used := some "web_search", result := some "r",
                    error := none }] } :=
  (c10_plan_frame ParseResult.fail (ParseResult.ok []) _ (by simp) rfl).1

/-! ### Unhandled reflect routing (claim C1) -/

theorem runAux_crashed (reg : List String) (os : Nat → StepOracle) (s : WorkflowState) :
    ∀ fuel i, runAux reg os i fuel (.crashed s) = .crashed s := by
  intro fuel i
  cases fuel <;> rfl

theorem runAux_finished (reg : List String) (os : Nat → StepOracle) (s : WorkflowState) :
    ∀ fuel i, runAux reg os i fuel (.finished s) = .finished s := by
  intro fuel i
  cases fuel <;> rfl

theorem runAux_add (reg : List String) (os : Nat → StepOracle) (a : Nat) :
    ∀ b i e, runAux reg os i (a + b) e = runAux reg os (i + a) b (runAux reg os i a e) := by
  induction a with
  | zero =>
    intro b i e
    simp [runAux]
  | succ m ih =>
    intro b i e
    cases e with
    | running s n =>
      have h1 : m + 1 + b = m + b + 1 := by omega
      rw [h1]
      show runAux reg os (i + 1) (m + b) (graphStep reg (os i) s n) =
        runAux reg os (i + (m + 1)) b (runAux reg os (i + 1) m (graphStep reg (os i) s n))
      rw [ih b (i + 1) (graphStep reg (os i) s n)]
      have h2 : i + 1 + m = i + (m + 1) := by omega
      rw [h2]
    | finished s => rw [runAux_finished, runAux_finished, runAux_finished]
    | crashed s => rw [runAux_crashed, runAux_crashed, runAux_crashed]

/-- C1: the claim that every run reaches DONE and every routing result after
a REFLECT step is handled FAILS on the code: under the collaborator
behaviour `osC1` (valid one-task plan, successful execution, negative
adequacy judgment) the run crashes at step 3 — the routing function returns
"reflect" after the reflect node, which the reflect conditional-edge mapping
does not handle — and no amount of extra fuel ever finishes the run. -/
theorem c1_reflect_route_unmapped :
    run standardRegistry osC1 (initialState "q") 3 = Exec.crashed c1CrashState
    ∧ ∀ extra, run standardRegistry osC1 (initialState "q") (3 + extra) =
        Exec.crashed c1CrashState := by
  have h3 : run standardRegistry osC1 (initialState "q") 3 = Exec.crashed c1CrashState := rfl
  refine ⟨h3, fun extra => ?_⟩
  show runAux standardRegistry osC1 0 (3 + extra) (.running (initialState "q") .plan) =
    Exec.crashed c1CrashState
  rw [runAux_add standardRegistry osC1 3 extra 0 (.running (initialState "q") .plan)]
  rw [show runAux standardRegistry osC1 0 3 (.running (initialState "q") .plan) =
    Exec.crashed c1CrashState from h3]
  rw [runAux_crashed]

/-! ### Planner id assignment (claim C5) -/

/-- C5 counterexample: on the parsed array `[malformed, valid]` the single
returned task (the 1st task, counting from 1) has id 2, so the ids are not
consecutive from 1 as the claim states for arrays containing malformed
entries. -/
theorem c5_counterexample :
    (plan "q" (ParseResult.ok [none, some ("d", "web_search")])).map Task.id = [2]
    ∧ (plan "q" (ParseResult.ok [none, some ("d", "web_search")])).map Task.id ≠
        List.range' 1 (plan "q" (ParseResult.ok [none, some ("d", "web_search")])).length := by
  exact ⟨rfl, by decide⟩

theorem planTasksAux_id_gt :
    ∀ i (l : List (Option (String × String))), ∀ t ∈ planTasksAux i l, i < t.id := by
  intro i l
  induction l generalizing i with
  | nil => intro t ht; cases ht
  | cons e rest ih =>
    intro t ht
    cases e with
    | none => exact Nat.lt_of_succ_lt (ih (i + 1) t ht)
    | some dt =>
      obtain ⟨d, tl⟩ := dt
      rcases List.mem_cons.mp ht with h | h
      · subst h; exact Nat.lt_succ_self i
      · exact Nat.lt_of_succ_lt (ih (i + 1) t h)

theorem planTasksAux_chain :
    ∀ i (l : List (Option (String × String))),
      List.Chain' (fun a b => a.id < b.id) (planTasksAux i l) := by
  intro i l
  induction l generalizing i with
  | nil => exact List.chain'_nil
  | cons e rest ih =>
    cases e with
    | none => exact ih (i + 1)
    | some dt =>
      obtain ⟨d, tl⟩ := dt
      refine List.chain'_cons'.mpr ⟨?_, ih (i + 1)⟩
      intro b hb
      exact planTasksAux_id_gt (i + 1) rest b (List.mem_of_mem_head? hb)

theorem planTasksAux_all_valid :
    ∀ i (l : List (Option (String × String))), (∀ e ∈ l, e ≠ none) →
      (planTasksAux i l).map Task.id = List.range' (i + 1) l.length := by
  intro i l
  induction l generalizing i with
  | nil => intro _; rfl
  | cons e rest ih =>
    intro h
    cases e with
    | none => exact absurd rfl (h none (List.mem_cons_self ..))
    | some dt =>
      obtain ⟨d, tl⟩ := dt
      simp only [planTasksAux, List.map_cons, List.length_cons, List.range'_succ]
      exact congrArg (List.cons (i + 1)) (ih (i + 1) (fun x hx => h x (List.mem_cons_of_mem _ hx)))

/-- C5 amended: the ids of the tasks returned by planning are strictly
increasing, each id being one plus the entry's index in the parsed array;
they are consecutive from 1 whenever every entry of the array is valid, and
the fallback task produced on a parse failure has id 1. -/
theorem c5_plan_ids (q : String) (pr : ParseResult) :
    List.Chain' (fun a b => a.id < b.id) (plan q pr)
    ∧ (∀ entries, pr = ParseResult.ok entries → (∀ e ∈ entries, e ≠ none) →
        (plan q pr).map Task.id = List.range' 1 (plan q pr).length)
    ∧ (plan q ParseResult.fail).map Task.id = [1] := by
  refine ⟨?_, ?_, rfl⟩
  · cases pr with
    | fail => simp [plan, createFallbackTask]
    | ok entries =>
      simp only [plan]
      split
      · simp [createFallbackTask]
      · exact planTasksAux_chain 0 entries
  · intro entries hpr hval
    subst hpr
    simp only [plan]
    split
    · rfl
    · have hmap := planTasksAux_all_valid 0 entries hval
      have hlen : (planTasksAux 0 entries).length = entries.length := by
        have hl := congrArg List.length hmap
        simpa using hl
      rw [hlen, hmap]

/-- C5 amended witness: a fully valid two-entry array yields ids [1, 2]. -/
theorem c5_plan_ids_witness :
    (plan "q" (ParseResult.ok [some ("a", "web_search"), some ("b", "calculator")])).map
        Task.id =
      List.range' 1
        (plan "q" (ParseResult.ok [some ("a", "web_search"), some ("b", "calculator")])).length :=
  (c5_plan_ids "q" (ParseResult.ok [some ("a", "web_search"), some ("b", "calculator")])).2.1
    [some ("a", "web_search"), some ("b", "calculator")] rfl (by decide)

/-! ### The needs_replan protocol (claim C6) -/

/-- C6 counterexample: on a concrete state with one failed task and
iteration count 0, the reflect step decides to keep iterating (it increments
the iteration count and sets `should_continue`), yet `needs_replan` is NOT
set to true — it stays false, refuting the claim that reflection sets it. -/
theorem c6_counterexample :
    (reflect_node defaultOracle reflectLoopState).should_continue = true
    ∧ (reflect_node defaultOracle reflectLoopState).iteration_count =
        reflectLoopState.iteration_count + 1
    ∧ (reflect_node defaultOracle reflectLoopState).needs_replan = false :=
  ⟨rfl, rfl, rfl⟩

/-- C6 amended: the reflect step never modifies `needs_replan` (in
particular it does not set it to true when it keeps iterating — it only sets
`should_continue` to true and loops back to plan through the edge mapping),
and the plan step sets `needs_replan` to false whenever it acts (task list
empty or `needs_replan` set). -/
theorem c6_needs_replan (o : StepOracle) (pr : ParseResult) (s : WorkflowState) :
    (reflect_node o s).needs_replan = s.needs_replan
    ∧ (should_refine_plan o.adequacyResp s = true → s.iteration_count < 3 →
        (reflect_node o s).should_continue = true)
    ∧ ((s.tasks.isEmpty ∨ s.needs_replan) → (plan_node pr s).needs_replan = false) := by
  refine ⟨?_, ?_, ?_⟩
  · unfold reflect_node
    split <;> rfl
  · intro h1 h2
    unfold reflect_node
    rw [if_pos ⟨h1, h2⟩]
  · intro h
    unfold plan_node
    rw [if_pos h]

/-- C6 amended witness: the concrete failed-task state (reflect keeps
iterating yet `needs_replan` stays put) and the initial state (plan acts and
clears `needs_replan`). -/
theorem c6_needs_replan_witness :
    (reflect_node defaultOracle reflectLoopState).needs_replan =
      reflectLoopState.needs_replan
    ∧ (reflect_node defaultOracle reflectLoopState).should_continue = true
    ∧ (plan_node ParseResult.fail (initialState "q")).needs_replan = false := by
  have h := c6_needs_replan defaultOracle ParseResult.fail reflectLoopState
  have h2 := c6_needs_replan defaultOracle ParseResult.fail (initialState "q")
  exact ⟨h.1, h.2.1 (by rfl) (by decide), h2.2.2 (Or.inl (by rfl))⟩

/-! ### Task field invariant (claim C3) -/

/-- C3 counterexample: after 9 orchestrator steps of the `osC3` run — a
reachable trace in which a reflection modify re-targets a completed task
through a duplicated id — some task violates the claimed field invariant
(the task with id 3 is pending while still carrying `result = some "r3"`,
because modify does not clear `result`). -/
theorem c3_counterexample :
    ((execState (run standardRegistry osC3 (initialState "q") 9)).tasks.all
        taskFieldsClaim) = false := rfl

theorem TaskOK_fresh (n : Nat) (d : String) (tl : Option String) :
    TaskOK { id := n, description := d, status := .pending, tool_used := tl
             result := none, error := none } := by
  simp [TaskOK]

theorem planTasksAux_taskOK :
    ∀ i (l : List (Option (String × String))), ∀ t ∈ planTasksAux i l, TaskOK t := by
  intro i l
  induction l generalizing i with
  | nil => intro t ht; cases ht
  | cons e rest ih =>
    intro t ht
    cases e with
    | none => exact ih (i + 1) t ht
    | some dt =>
      obtain ⟨d, tl⟩ := dt
      rcases List.mem_cons.mp ht with h | h
      · subst h; exact TaskOK_fresh ..
      · exact ih (i + 1) t h

theorem createFallbackTask_taskOK (q : String) : ∀ t ∈ createFallbackTask q, TaskOK t := by
  intro t ht
  rcases List.mem_cons.mp ht with h | h
  · subst h; exact TaskOK_fresh ..
  · cases h

theorem plan_taskOK (q : String) (pr : ParseResult) : ∀ t ∈ plan q pr, TaskOK t := by
  cases pr with
  | fail => exact createFallbackTask_taskOK q
  | ok entries =>
    simp only [plan]
    split
    · exact createFallbackTask_taskOK q
    · exact planTasksAux_taskOK 0 entries

theorem plan_node_stateOK (pr : ParseResult) (s : WorkflowState) (hs : StateOK s) :
    StateOK (plan_node pr s) := by
  unfold plan_node
  split
  · intro t ht
    exact plan_taskOK s.original_query pr t ht
  · exact hs

theorem execute_task_taskOK (reg : List String) (o : ToolOutcome) (t : Task)
    (hp : t.status = .pending) (ht : TaskOK t) : TaskOK (execute_task reg o t) := by
  unfold execute_task
  split
  · cases o with
    | ok r =>
      simp only [TaskOK]
      refine ⟨by simp, fun _ => ⟨by simp, ht.1 hp⟩, by simp⟩
    | err e => simp [TaskOK]
    | exn m => simp [TaskOK]
  · simp [TaskOK]

theorem executeFirstPending_taskOK (f : Task → Task)
    (hf : ∀ t, t.status = .pending → TaskOK t → TaskOK (f t)) :
    ∀ l, (∀ t ∈ l, TaskOK t) → ∀ t ∈ executeFirstPending f l, TaskOK t := by
  intro l
  induction l with
  | nil => intro _ t ht; cases ht
  | cons a rest ih =>
    intro hl t ht
    unfold executeFirstPending at ht
    by_cases hs : a.status = Status.pending
    · rw [if_pos hs] at ht
      rcases List.mem_cons.mp ht with h | h
      · subst h; exact hf a hs (hl a (List.mem_cons_self ..))
      · exact hl t (List.mem_cons_of_mem _ h)
    · rw [if_neg hs] at ht
      rcases List.mem_cons.mp ht with h | h
      · rw [h]; exact hl a (List.mem_cons_self ..)
      · exact ih (fun x hx => hl x (List.mem_cons_of_mem _ hx)) t h

theorem execute_node_stateOK (reg : List String) (o : ToolOutcome) (s : WorkflowState)
    (hs : StateOK s) : StateOK (execute_node reg o s) :=
  executeFirstPending_taskOK (execute_task reg o)
    (fun t hp ht => execute_task_taskOK reg o t hp ht) s.tasks hs

theorem applyModify_taskOK (tid : Nat) (d : String) :
    ∀ l, (∀ t ∈ l, TaskOK t) → ∀ t ∈ applyModify tid d l, TaskOK t := by
  intro l
  induction l with
  | nil => intro _ t ht; cases ht
  | cons a rest ih =>
    intro hl t ht
    unfold applyModify at ht
    by_cases hid : a.id = tid
    · rw [if_pos hid] at ht
      rcases List.mem_cons.mp ht with h | h
      · subst h; simp [TaskOK]
      · exact hl t (List.mem_cons_of_mem _ h)
    · rw [if_neg hid] at ht
      rcases List.mem_cons.mp ht with h | h
      · rw [h]; exact hl a (List.mem_cons_self ..)
      · exact ih (fun x hx => hl x (List.mem_cons_of_mem _ hx)) t h

theorem applyRefinement_taskOK (l : List Task) (r : Refinement)
    (hl : ∀ t ∈ l, TaskOK t) : ∀ t ∈ applyRefinement l r, TaskOK t := by
  cases r with
  | modify tid d => exact applyModify_taskOK tid d l hl
  | add d tool =>
    intro t ht
    rcases List.mem_append.mp ht with h | h
    · exact hl t h
    · rcases List.mem_cons.mp h with h2 | h2
      · subst h2; exact TaskOK_fresh ..
      · cases h2

theorem foldl_applyRefinement_taskOK :
    ∀ (rs : List Refinement) (l : List Task), (∀ t ∈ l, TaskOK t) →
      ∀ t ∈ rs.foldl applyRefinement l, TaskOK t := by
  intro rs
  induction rs with
  | nil => intro l hl; exact hl
  | cons r rest ih =>
    intro l hl
    exact ih (applyRefinement l r) (applyRefinement_taskOK l r hl)

theorem reflect_node_stateOK (o : StepOracle) (s : WorkflowState) (hs : StateOK s) :
    StateOK (reflect_node o s) := by
  unfold reflect_node
  split
  · exact foldl_applyRefinement_taskOK (suggest_refinements o.modifyResp o.addResp s)
      s.tasks hs
  · exact hs

theorem finalize_node_stateOK (r : String) (s : WorkflowState) (hs : StateOK s) :
    StateOK (finalize_node r s) := by
  unfold finalize_node
  split
  · exact hs
  · exact hs

theorem graphStep_stateOK (reg : List String) (o : StepOracle) (s : WorkflowState)
    (n : Node) (hs : StateOK s) : StateOK (execState (graphStep reg o s n)) := by
  cases n with
  | plan => exact plan_node_stateOK o.planParse s hs
  | execute =>
    show StateOK (execState (execRoute (execute_node reg o.toolOutcome s)))
    rw [execState_execRoute]
    exact execute_node_stateOK reg o.toolOutcome s hs
  | reflect =>
    show StateOK (execState (reflectRoute (reflect_node o s)))
    rw [execState_reflectRoute]
    exact reflect_node_stateOK o s hs
  | finalize => exact finalize_node_stateOK o.synthResp s hs

theorem runAux_stateOK (reg : List String) (os : Nat → StepOracle) (fuel : Nat) :
    ∀ i e, StateOK (execState e) → StateOK (execState (runAux reg os i fuel e)) := by
  induction fuel with
  | zero => intro i e h; exact h
  | succ m ih =>
    intro i e h
    cases e with
    | running s n =>
      exact ih (i + 1) (graphStep reg (os i) s n) (graphStep_stateOK reg (os i) s n h)
    | finished s => exact h
    | crashed s => exact h

/-- C3 amended: in every state reachable after any orchestrator step, under
every registry and collaborator behaviour, each task satisfies: pending
implies error = null; completed implies result ≠ null and error = null;
failed implies error ≠ null. The claim's additional demands that a pending
or failed task has result = null do NOT hold (see the counterexample):
reflection's modify does not clear `result` and can re-target a completed
task through a duplicated id. -/
theorem c3_task_fields (reg : List String) (os : Nat → StepOracle) (q : String)
    (fuel : Nat) : StateOK (execState (run reg os (initialState q) fuel)) :=
  runAux_stateOK reg os fuel 0 (.running (initialState q) .plan) (fun _ ht => nomatch ht)

/-- C3 amended witness: the invariant instantiated on the state after one
step of a concrete run, at its single (fallback) task. -/
theorem c3_task_fields_witness :
    TaskOK { id := 1, description := "Search for information about: q"
             status := Status.pending, tool_used := some "web_search"
             result := none, error := none } :=
  c3_task_fields standardRegistry (fun _ => defaultOracle) "q" 1
    { id := 1, description := "Search for information about: q"
      status := Status.pending, tool_used := some "web_search"
      result := none, error := none } (by decide)

end AgenticWorkflow
